import Mathlib

/-!
Shallow embedding of the native voice-session bridge implemented in
`src/native/tsclientlib-node/src/lib.rs`.

Modelling conventions:
* Machine integers are `Nat`/`Int`; `i16` values obtained from
  `i16::from_le_bytes` are computed with an explicit two's-complement
  formula.
* `f32` audio samples are modelled as exact rationals (`ℚ`); all
  properties proved below depend only on control flow (comparisons and
  branch structure), not on floating-point rounding.
* External collaborators (the tsclientlib connection, the Opus encoder,
  the per-participant `AudioHandler`, tokio channels and tasks) appear
  as explicit outcome parameters or as observed data fields, exactly at
  the interface boundary that the Rust code consumes.
* Emitting an event (`emit` / `emit_error` in the source) is modelled as
  appending a `NativeEvent` to a result list.
-/

/-- Constant `SAMPLE_RATE` (lib.rs line 23). -/
def SAMPLE_RATE : Nat := 48000

/-- Constant `FRAME_SAMPLES = SAMPLE_RATE / 50 = 960` (lib.rs line 24). -/
def FRAME_SAMPLES : Nat := SAMPLE_RATE / 50

/-- Constant `INTERNAL_CHANNELS` (lib.rs line 25). -/
def INTERNAL_CHANNELS : Nat := 2

/-- Constant `MAX_OPUS_FRAME_SIZE` (lib.rs line 26). -/
def MAX_OPUS_FRAME_SIZE : Nat := 1275

/-- `to_frames` (lib.rs lines 520-536): partition the captured samples
into consecutive windows of `FRAME_SAMPLES` samples.  Each loop
iteration copies `samples[index..end]` into a zero-initialised
`[0i16; FRAME_SAMPLES]` array, which is exactly
`chunk ++ replicate (FRAME_SAMPLES - chunk.length) 0`.  The early
`is_empty` return of the source is the `samples = []` base case. -/
def to_frames (samples : List Int) : List (List Int) :=
  if h : samples = [] then []
  else
    (samples.take FRAME_SAMPLES
        ++ List.replicate (FRAME_SAMPLES - (samples.take FRAME_SAMPLES).length) 0)
      :: to_frames (samples.drop FRAME_SAMPLES)
termination_by samples.length
decreasing_by
  simp only [List.length_drop]
  have h1 : 0 < samples.length := List.length_pos.mpr h
  have h2 : 0 < FRAME_SAMPLES := by decide
  omega

/-- Payload of an `audioSpeaker` / `audioMixed` event as built by
`emit_audio_payload` (lib.rs lines 618-637).  The base64 serialisation
of the PCM bytes is kept as the list of `i16` sample values. -/
structure AudioPayload where
  sampleRate : Nat
  channels : Nat
  samples : Nat
  pcm : List Int
  clientId : Option Nat
  deriving DecidableEq

/-- A `NativeEvent` (lib.rs lines 30-34) with its JSON payload modelled
structurally, one constructor per `emit` call-site shape. -/
inductive NativeEvent
  | errorEv (code : String) (message : String)
  | disconnectedEv (temporary : Bool) (reason : String)
  | reconnectingEv (reason : String)
  | connectedEv (serverName : String)
  | audioEv (name : String) (payload : AudioPayload)
  deriving DecidableEq

/-- The `name` field a `NativeEvent` is emitted under. -/
def event_name : NativeEvent → String
  | .errorEv _ _ => "error"
  | .disconnectedEv _ _ => "disconnected"
  | .reconnectingEv _ => "reconnecting"
  | .connectedEv _ => "connected"
  | .audioEv nm _ => nm

/-- The audio payload of an event, when it carries one. -/
def event_payload : NativeEvent → Option AudioPayload
  | .audioEv _ p => some p
  | _ => none

/-- `ControlMessage` (lib.rs lines 36-42).  The oneshot acknowledgement
channel of `Disconnect` is not part of the queued data model. -/
inductive ControlMessage
  | PushFrame (samples : List Int)
  | Disconnect (message : Option String)
  deriving DecidableEq

/-- `DisconnectParams` (lib.rs lines 55-59). -/
structure DisconnectParams where
  message : Option String
  reason_code : Option Nat
  deriving DecidableEq

/-- napi error statuses used by the handle operations. -/
inductive Status
  | InvalidArg
  | GenericFailure
  deriving DecidableEq

/-- A napi `Error` as constructed by `Error::new(status, message)`. -/
structure NapiError where
  status : Status
  message : String
  deriving DecidableEq

/-- The `TeamSpeakClient` handle state (lib.rs lines 61-68).
`control_tx` is the presence of the command-sender; `queue` models the
sequence of commands transferred into the bounded (capacity 256)
control channel; `rx_closed` records whether the worker has dropped the
receiver; `join` is the task handle, holding the value
`JoinHandle::is_finished()` would report when observed; `connected` is
the atomic liveness flag; `identity` the stored identity string.  The
registered event callback (`event_tsfn`) is external and not part of
the state the claims quantify over. -/
structure TeamSpeakClient where
  control_tx : Bool
  queue : List ControlMessage
  rx_closed : Bool
  join : Option Bool
  connected : Bool
  identity : Option String
  deriving DecidableEq

/-- `TeamSpeakClient::new` (lib.rs lines 72-81): all fields empty. -/
def TeamSpeakClient.new : TeamSpeakClient :=
  { control_tx := false, queue := [], rx_closed := true, join := none,
    connected := false, identity := none }

/-- `refresh_worker_state` (lib.rs lines 240-255): if the worker task
has already finished, clear the liveness flag, drop the command-sender
and take the join handle; otherwise leave the state untouched. -/
def TeamSpeakClient.refresh_worker_state (c : TeamSpeakClient) : TeamSpeakClient :=
  if c.join.getD false then
    { c with connected := false, control_tx := false, join := none }
  else c

/-- Little-endian signed 16-bit decode, `i16::from_le_bytes([b0, b1])`
(lib.rs line 212). -/
def i16_from_le_bytes (b0 b1 : Nat) : Int :=
  let u := b0 % 256 + 256 * (b1 % 256)
  if u < 32768 then (u : Int) else (u : Int) - 65536

/-- The sample vector built by `pcm_le.chunks_exact(2)` in `push_frame`
(lib.rs lines 210-213); a trailing odd byte would be ignored (the
parity check makes that unreachable). -/
def bytes_to_samples : List Nat → List Int
  | b0 :: b1 :: rest => i16_from_le_bytes b0 b1 :: bytes_to_samples rest
  | _ => []

/-- `TeamSpeakClient::push_frame` (lib.rs lines 190-221): reconcile,
then fail `InvalidArg` when no sender exists, then fail `InvalidArg` on
odd byte length, then `try_send` the decoded samples (failing
`GenericFailure` when the bounded queue is full or the receiver is
gone). -/
def TeamSpeakClient.push_frame (c : TeamSpeakClient) (pcm_le : List Nat) :
    TeamSpeakClient × Except NapiError Unit :=
  let c' := c.refresh_worker_state
  if c'.control_tx = false then
    (c', .error ⟨.InvalidArg, "Not connected"⟩)
  else if pcm_le.length % 2 ≠ 0 then
    (c', .error ⟨.InvalidArg, "PCM buffer size must be divisible by 2"⟩)
  else
    let samples := bytes_to_samples pcm_le
    if c'.queue.length < 256 ∧ c'.rx_closed = false then
      ({ c' with queue := c'.queue ++ [ControlMessage.PushFrame samples] }, .ok ())
    else
      (c', .error ⟨.GenericFailure,
        "Audio queue is full or closed; keep push cadence near 20ms"⟩)

/-- Outcome of awaiting the readiness oneshot in `connect`
(lib.rs lines 127-145): the worker reported success, reported a
failure message, or dropped the channel without reporting. -/
inductive ReadyOutcome
  | ok
  | err (message : String)
  | channelDropped
  deriving DecidableEq

/-- `TeamSpeakClient::connect` (lib.rs lines 101-146).
`identityResult` is the outcome of
`parse_or_create_identity(opts.identity).map(identity_to_string)`
(external key material, lib.rs lines 108-110); `ready` is the
readiness-channel outcome.  On `Ok(Err(e))` the sender is cleared and
the join handle is taken and aborted; on a dropped channel only the
sender is cleared — the join handle is left in place, exactly as in the
source (lib.rs lines 137-144). -/
def TeamSpeakClient.connect (c : TeamSpeakClient)
    (identityResult : Except String String) (ready : ReadyOutcome) :
    TeamSpeakClient × Except NapiError Unit :=
  let c' := c.refresh_worker_state
  if c'.control_tx then
    (c', .error ⟨.InvalidArg, "Already connected or connecting"⟩)
  else
    match identityResult with
    | .error e => (c', .error ⟨.InvalidArg, e⟩)
    | .ok idStr =>
      let c2 := { c' with identity := some idStr, connected := false,
                          control_tx := true, queue := [], rx_closed := false,
                          join := some false }
      match ready with
      | .ok => (c2, .ok ())
      | .err e =>
          ({ c2 with connected := false, control_tx := false, join := none },
           .error ⟨.GenericFailure, e⟩)
      | .channelDropped =>
          ({ c2 with connected := false, control_tx := false },
           .error ⟨.GenericFailure,
             "Connection worker exited before reporting status"⟩)

/-- Outcome of the `tx.send(Disconnect ..)` / `done_rx.await` pair in
`disconnect` (lib.rs lines 165-187): the send failed (worker gone), the
acknowledgement channel was dropped, or the worker acknowledged with
`Ok`/`Err`. -/
inductive DisconnectFlow
  | sendFailed
  | ackDropped
  | ackOk
  | ackErr (message : String)
  deriving DecidableEq

/-- `TeamSpeakClient::disconnect` (lib.rs lines 148-188): reconcile; if
no sender exists return `Ok` immediately; otherwise send a `Disconnect`
command and await the acknowledgement, clearing sender/flag and joining
the task on an acknowledged outcome.  The middle component is the list
of events emitted by this function itself — the handle contains no
`emit` call, so it is `[]` on every path. -/
def TeamSpeakClient.disconnect (c : TeamSpeakClient)
    (params : Option DisconnectParams) (flow : DisconnectFlow) :
    TeamSpeakClient × List NativeEvent × Except NapiError Unit :=
  let c' := c.refresh_worker_state
  if c'.control_tx = false then
    (c', [], .ok ())
  else
    let sentMsg := ControlMessage.Disconnect (params.bind DisconnectParams.message)
    match flow with
    | .sendFailed =>
        (c', [], .error ⟨.GenericFailure, "Connection worker is not running"⟩)
    | .ackDropped =>
        ({ c' with queue := c'.queue ++ [sentMsg] },
         [], .error ⟨.GenericFailure, "Disconnect interrupted"⟩)
    | .ackOk =>
        ({ c' with queue := c'.queue ++ [sentMsg], connected := false,
                   control_tx := false, join := none, rx_closed := true },
         [], .ok ())
    | .ackErr e =>
        ({ c' with queue := c'.queue ++ [sentMsg], connected := false,
                   control_tx := false, join := none, rx_closed := true },
         [], .error ⟨.GenericFailure, e⟩)

/-- The invariant of spec §3: the command-sender and the task handle
are both present or both absent. -/
def sender_join_consistent (c : TeamSpeakClient) : Bool :=
  c.control_tx == c.join.isSome

/-- Observed per-participant state for one mixer tick
(`speaker_handlers` entry, lib.rs lines 574-593): the participant id,
the interleaved stereo samples its `AudioHandler::fill_buffer` writes
for this tick (always `FRAME_SAMPLES * INTERNAL_CHANNELS` samples in
the program), and the value of `handler.get_queues().is_empty()`
observed immediately after that drain. -/
structure SpeakerState where
  cid : Nat
  stereo : List ℚ
  queuesEmpty : Bool
  deriving DecidableEq

/-- `chunks_exact(2)` over the stereo samples (lib.rs line 612): the
complete pairs, a trailing odd element dropped. -/
def chunks_exact2 : List ℚ → List (ℚ × ℚ)
  | a :: b :: rest => (a, b) :: chunks_exact2 rest
  | _ => []

/-- `downmix_stereo_to_mono` (lib.rs lines 603-616): empty input gives
a silent frame, a single sample is broadcast, otherwise each of the
first `FRAME_SAMPLES` stereo pairs is averaged into a zero-initialised
output frame. -/
def downmix_stereo_to_mono (input : List ℚ) : List ℚ :=
  if input = [] then List.replicate FRAME_SAMPLES 0
  else if input.length < 2 then List.replicate FRAME_SAMPLES input.headI
  else
    let avgs := ((chunks_exact2 input).take FRAME_SAMPLES).map
      (fun p => (p.1 + p.2) * (1 / 2 : ℚ))
    avgs ++ List.replicate (FRAME_SAMPLES - avgs.length) 0

/-- `has_audio` (lib.rs lines 639-641): some sample exceeds the fixed
silence threshold in absolute value. -/
def has_audio (frame : List ℚ) : Bool :=
  frame.any (fun s => decide ((1 / 10000 : ℚ) < |s|))

/-- Truncation of the `as i16` cast in `f32_to_pcm_le`
(lib.rs line 646): round toward zero. -/
def rat_trunc (q : ℚ) : Int :=
  if 0 ≤ q then ⌊q⌋ else -⌊-q⌋

/-- `f32_to_pcm_le` (lib.rs lines 643-650): clamp each sample to
`[-1, 1]`, scale by `i16::MAX` and truncate.  The little-endian byte
serialisation is kept as the resulting sample list. -/
def f32_to_pcm_le (frame : List ℚ) : List Int :=
  frame.map (fun s => rat_trunc (min 1 (max (-1 : ℚ) s) * 32767))

/-- `emit_audio_payload` (lib.rs lines 618-637): build the audio event
payload; `sampleRate`, `channels` and `samples` are the constants of
the source, and `clientId` is attached only when given. -/
def emit_audio_payload (nm : String) (cid : Option Nat) (frame : List ℚ) :
    NativeEvent :=
  .audioEv nm
    { sampleRate := SAMPLE_RATE, channels := 1, samples := FRAME_SAMPLES,
      pcm := f32_to_pcm_le frame, clientId := cid }

/-- The per-participant loop of `emit_audio_frames`
(lib.rs lines 574-593), carrying the `to_remove`, `mixed` and emitted
events accumulators in iteration order: drain the participant, record
it for removal when its queue set is observed empty, then skip silent
frames or accumulate into the mix and emit an `audioSpeaker` event. -/
def drain_loop :
    List SpeakerState → List Nat → List ℚ → List NativeEvent →
    List Nat × List ℚ × List NativeEvent
  | [], to_remove, mixed, events => (to_remove, mixed, events)
  | sp :: rest, to_remove, mixed, events =>
    let to_remove' := if sp.queuesEmpty then to_remove ++ [sp.cid] else to_remove
    let frame := downmix_stereo_to_mono sp.stereo
    if has_audio frame then
      drain_loop rest to_remove'
        (List.zipWith (fun m s => m + s) mixed frame)
        (events ++ [emit_audio_payload "audioSpeaker" (some sp.cid) frame])
    else
      drain_loop rest to_remove' mixed events

/-- The participant ids collected in `to_remove` during one tick of
`emit_audio_frames`. -/
def marked_for_removal (speakers : List SpeakerState) : List Nat :=
  (drain_loop speakers [] (List.replicate FRAME_SAMPLES 0) []).1

/-- `emit_audio_frames` (lib.rs lines 567-601): run the participant
loop, emit the composite `audioMixed` event unconditionally, then — and
only then — remove the participants recorded in `to_remove` from the
map.  The result is the emitted event sequence and the surviving
participant set (`HashMap` keys are unique; removal of one id is
`filter`). -/
def emit_audio_frames (speakers : List SpeakerState) :
    List NativeEvent × List SpeakerState :=
  let res := drain_loop speakers [] (List.replicate FRAME_SAMPLES 0) []
  (res.2.2 ++ [emit_audio_payload "audioMixed" none res.2.1],
   res.1.foldl (fun m cid => m.filter (fun sp => sp.cid != cid)) speakers)

/-- The `audioSpeaker` events one tick produces, in participant order:
one event per participant whose downmixed frame is audible. -/
def speaker_events (speakers : List SpeakerState) : List NativeEvent :=
  speakers.filterMap (fun sp =>
    if has_audio (downmix_stereo_to_mono sp.stereo) then
      some (emit_audio_payload "audioSpeaker" (some sp.cid)
        (downmix_stereo_to_mono sp.stereo))
    else none)

/-- Outcome of one `encoder.encode_float` call (lib.rs line 339): the
compressed payload `opus_out[..len]`, or the error message. -/
inductive EncodeResult
  | encoded (data : List Nat)
  | encodeFailed (message : String)
  deriving DecidableEq

/-- Outcome of one `sync_con.send_audio` call (lib.rs line 346). -/
inductive SendResult
  | sent
  | sendFailed (message : String)
  deriving DecidableEq

/-- An outbound audio packet, `OutAudio::new(&AudioData::C2S { id: 0,
codec: OpusVoice, data })` (lib.rs lines 341-345). -/
structure OutPacket where
  id : Nat
  codec : String
  data : List Nat
  deriving DecidableEq

/-- Builds the outbound packet for one encoded window. -/
def mk_out_audio (data : List Nat) : OutPacket :=
  { id := 0, codec := "OpusVoice", data := data }

/-- The normalised float input built for one window (lib.rs lines
334-337): a zero-initialised `[0f32; FRAME_SAMPLES]` array whose first
`frame.length` entries are `frame[i] / i16::MAX`. -/
def normalize_input (frame : List Int) : List ℚ :=
  let written := (frame.take FRAME_SAMPLES).map (fun s => (s : ℚ) / 32767)
  written ++ List.replicate (FRAME_SAMPLES - written.length) 0

/-- The event (if any) the PushFrame loop emits for window number `i`
holding `frame`: an `E_AUDIO_ENCODE` error when encoding fails, an
`E_SEND_AUDIO` error when sending fails, nothing on success
(lib.rs lines 339-351). -/
def window_event (enc : Nat → List ℚ → EncodeResult) (snd : Nat → SendResult)
    (i : Nat) (frame : List Int) : Option NativeEvent :=
  match enc i (normalize_input frame) with
  | .encodeFailed e => some (.errorEv "E_AUDIO_ENCODE" e)
  | .encoded _ =>
    match snd i with
    | .sendFailed e => some (.errorEv "E_SEND_AUDIO" e)
    | .sent => none

/-- The packet (if any) the PushFrame loop hands to the session for
window number `i` holding `frame`. -/
def window_packet (enc : Nat → List ℚ → EncodeResult) (snd : Nat → SendResult)
    (i : Nat) (frame : List Int) : Option OutPacket :=
  match enc i (normalize_input frame) with
  | .encodeFailed _ => none
  | .encoded d =>
    match snd i with
    | .sendFailed _ => none
    | .sent => some (mk_out_audio d)

/-- The `for frame in to_frames(&samples)` loop of the PushFrame branch
(lib.rs lines 333-352), with the external encoder and send outcomes
indexed by window position.  Every window is processed; a failing
window contributes exactly one error event and a succeeding window
exactly one packet; no branch leaves the loop. -/
def push_frame_loop (enc : Nat → List ℚ → EncodeResult)
    (snd : Nat → SendResult) :
    List (List Int) → Nat → List NativeEvent × List OutPacket
  | [], _ => ([], [])
  | frame :: rest, i =>
    let tail := push_frame_loop enc snd rest (i + 1)
    match enc i (normalize_input frame) with
    | .encodeFailed e => (.errorEv "E_AUDIO_ENCODE" e :: tail.1, tail.2)
    | .encoded d =>
      match snd i with
      | .sendFailed e => (.errorEv "E_SEND_AUDIO" e :: tail.1, tail.2)
      | .sent => (tail.1, mk_out_audio d :: tail.2)

/-- Handling of one `ControlMessage::PushFrame(samples)` command
(lib.rs lines 332-353): frame the samples and run the encode/send
loop. -/
def handle_push_frame (enc : Nat → List ℚ → EncodeResult)
    (snd : Nat → SendResult) (samples : List Int) :
    List NativeEvent × List OutPacket :=
  push_frame_loop enc snd (to_frames samples) 0

/-- Outcome of the bounded (8 s) shutdown drain after a successful
disconnect request (lib.rs lines 373-404): the stream closed cleanly, a
fatal stream error occurred during the drain, or the timeout fired. -/
inductive DrainOutcome
  | completed
  | drainStreamFailed (message : String)
  | timedOut
  deriving DecidableEq

/-- The error events the shutdown drain outcome contributes
(lib.rs lines 391-404). -/
def drain_outcome_events : DrainOutcome → List NativeEvent
  | .completed => []
  | .drainStreamFailed e => [.errorEv "E_DISCONNECT" e]
  | .timedOut =>
      [.errorEv "E_DISCONNECT_TIMEOUT"
        "Timed out while waiting for graceful disconnect"]

/-- The ways `run_client` (lib.rs lines 257-465) stops: the builder
`connect()` fails (lines 293-303); the Opus encoder cannot be created
(lines 306-320); the session rejects the disconnect request outright
(lines 359-369); the disconnect drain runs to one of its outcomes,
having observed `reconnects` temporary-disconnect notices (lines
371-412); the event stream yields an error (lines 431-443); the event
stream ends (lines 444-455); or every select source is closed and the
loop `break`s (lines 458, 462-464). -/
inductive ExitPath
  | connectFailed (message : String)
  | encoderInitFailed (message : String)
  | disconnectRejected (message : String)
  | disconnectCompleted (outcome : DrainOutcome) (reconnects : List String)
  | streamFailed (message : String)
  | streamEnded
  | allSourcesClosed
  deriving DecidableEq

/-- The events `run_client` emits from the moment an exit path is taken
until it returns, in emission order, transcribed from the source lines
cited at `ExitPath`. -/
def exit_events : ExitPath → List NativeEvent
  | .connectFailed e =>
      [.errorEv "E_CONNECT" ("Failed to connect: " ++ e)]
  | .encoderInitFailed e =>
      [.errorEv "E_AUDIO_ENCODE" ("Failed to create Opus encoder: " ++ e)]
  | .disconnectRejected e =>
      [.errorEv "E_DISCONNECT" e, .disconnectedEv false "disconnect_error"]
  | .disconnectCompleted outcome reconnects =>
      (reconnects.map NativeEvent.reconnectingEv ++ drain_outcome_events outcome)
        ++ [.disconnectedEv false "client_disconnect"]
  | .streamFailed e =>
      [.errorEv "E_STREAM" e, .disconnectedEv false "stream_error"]
  | .streamEnded => [.disconnectedEv false "eof"]
  | .allSourcesClosed => []

/-- Whether an exit path ends the loop due to a failure, in the sense
of the claim: connection refused, codec-initializer failure, disconnect
rejection, stream error, stream end-of-input, and the all-sources-closed
exit.  A completed disconnect handshake (`disconnectCompleted`) is the
requested-teardown path, not a failure. -/
def exit_is_failure : ExitPath → Bool
  | .connectFailed _ => true
  | .encoderInitFailed _ => true
  | .disconnectRejected _ => true
  | .disconnectCompleted _ _ => false
  | .streamFailed _ => true
  | .streamEnded => true
  | .allSourcesClosed => true

/-! ## Theorems -/

theorem to_frames_nil : to_frames [] = [] := by
  rw [to_frames]
  simp

theorem to_frames_cons (samples : List Int) (h : samples ≠ []) :
    to_frames samples
      = (samples.take FRAME_SAMPLES
          ++ List.replicate (FRAME_SAMPLES - (samples.take FRAME_SAMPLES).length) 0)
        :: to_frames (samples.drop FRAME_SAMPLES) := by
  rw [to_frames]
  simp [h]

theorem to_frames_ne_nil (samples : List Int) (h : samples ≠ []) :
    to_frames samples ≠ [] := by
  rw [to_frames_cons samples h]
  simp

theorem to_frames_length (samples : List Int) :
    (to_frames samples).length
      = (samples.length + (FRAME_SAMPLES - 1)) / FRAME_SAMPLES := by
  have H : ∀ n (l : List Int), l.length ≤ n →
      (to_frames l).length = (l.length + (FRAME_SAMPLES - 1)) / FRAME_SAMPLES := by
    intro n
    induction n with
    | zero =>
      intro l hl
      have hnil : l = [] := List.length_eq_zero.mp (Nat.le_zero.mp hl)
      subst hnil
      simp [to_frames_nil]
      decide
    | succ n ih =>
      intro l hl
      by_cases h : l = []
      · subst h
        simp [to_frames_nil]
        decide
      · rw [to_frames_cons l h]
        have hK : FRAME_SAMPLES = 960 := rfl
        have hlen : (l.drop FRAME_SAMPLES).length = l.length - FRAME_SAMPLES := by
          simp [List.length_drop]
        have hrec := ih (l.drop FRAME_SAMPLES) (by rw [hlen, hK]; omega)
        simp only [List.length_cons, hrec, hlen]
        have hpos : 0 < l.length := List.length_pos.mpr h
        rw [hK]
        omega
  exact H samples.length samples le_rfl

theorem to_frames_frame_length (samples : List Int) :
    ∀ f ∈ to_frames samples, f.length = FRAME_SAMPLES := by
  have H : ∀ n (l : List Int), l.length ≤ n →
      ∀ f ∈ to_frames l, f.length = FRAME_SAMPLES := by
    intro n
    induction n with
    | zero =>
      intro l hl
      have hnil : l = [] := List.length_eq_zero.mp (Nat.le_zero.mp hl)
      subst hnil
      simp [to_frames_nil]
    | succ n ih =>
      intro l hl f hf
      by_cases h : l = []
      · subst h; simp [to_frames_nil] at hf
      · rw [to_frames_cons l h] at hf
        rcases List.mem_cons.mp hf with hf0 | hfr
        · subst hf0
          have htk : (l.take FRAME_SAMPLES).length ≤ FRAME_SAMPLES := by
            simp [List.length_take]
          simp only [List.length_append, List.length_replicate, List.length_take]
          omega
        · have hK : FRAME_SAMPLES = 960 := rfl
          have hpos : 0 < l.length := List.length_pos.mpr h
          exact ih (l.drop FRAME_SAMPLES)
            (by simp [List.length_drop, hK]; omega) f hfr
  exact H samples.length samples le_rfl

theorem to_frames_get_not_last (samples : List Int) :
    ∀ i, i + 1 < (to_frames samples).length →
      (to_frames samples)[i]?
          = some ((samples.drop (i * FRAME_SAMPLES)).take FRAME_SAMPLES)
        ∧ FRAME_SAMPLES ≤ (samples.drop (i * FRAME_SAMPLES)).length := by
  have H : ∀ n (l : List Int), l.length ≤ n →
      ∀ i, i + 1 < (to_frames l).length →
        (to_frames l)[i]? = some ((l.drop (i * FRAME_SAMPLES)).take FRAME_SAMPLES)
          ∧ FRAME_SAMPLES ≤ (l.drop (i * FRAME_SAMPLES)).length := by
    intro n
    induction n with
    | zero =>
      intro l hl i hi
      have hnil : l = [] := List.length_eq_zero.mp (Nat.le_zero.mp hl)
      subst hnil
      simp [to_frames_nil] at hi
    | succ n ih =>
      intro l hl i hi
      have hK : FRAME_SAMPLES = 960 := rfl
      by_cases h : l = []
      · subst h; simp [to_frames_nil] at hi
      · rw [to_frames_cons l h] at hi ⊢
        cases i with
        | zero =>
          have hrest : to_frames (l.drop FRAME_SAMPLES) ≠ [] := by
            intro hcon
            rw [List.length_cons, hcon] at hi
            simp at hi
          have hdrop : l.drop FRAME_SAMPLES ≠ [] := by
            intro hcon
            exact hrest (by rw [hcon, to_frames_nil])
          have hlong : FRAME_SAMPLES < l.length := by
            by_contra hle
            exact hdrop (List.drop_eq_nil_iff.mpr (by omega))
          have htk : (l.take FRAME_SAMPLES).length = FRAME_SAMPLES := by
            simp [List.length_take]
            omega
          simp [htk, List.drop_zero]
          omega
        | succ j =>
          have hlen : (l.drop FRAME_SAMPLES).length = l.length - FRAME_SAMPLES := by
            simp [List.length_drop]
          have hpos : 0 < l.length := List.length_pos.mpr h
          have hrec := ih (l.drop FRAME_SAMPLES)
            (by rw [hlen, hK]; omega) j
            (by
              rw [List.length_cons] at hi
              omega)
          rw [List.getElem?_cons_succ]
          rw [List.drop_drop] at hrec
          have harith : FRAME_SAMPLES + j * FRAME_SAMPLES = (j + 1) * FRAME_SAMPLES := by
            ring
          rw [harith] at hrec
          exact hrec
  exact H samples.length samples le_rfl

theorem to_frames_last_padding (samples : List Int)
    (h : samples.length % FRAME_SAMPLES ≠ 0) :
    ∃ lastF, (to_frames samples).getLast? = some lastF ∧
      ∀ j, samples.length % FRAME_SAMPLES ≤ j → j < FRAME_SAMPLES →
        lastF[j]? = some (0 : Int) := by
  have H : ∀ n (l : List Int), l.length ≤ n →
      l.length % FRAME_SAMPLES ≠ 0 →
      ∃ lastF, (to_frames l).getLast? = some lastF ∧
        ∀ j, l.length % FRAME_SAMPLES ≤ j → j < FRAME_SAMPLES →
          lastF[j]? = some (0 : Int) := by
    intro n
    induction n with
    | zero =>
      intro l hl hmod
      have hnil : l = [] := List.length_eq_zero.mp (Nat.le_zero.mp hl)
      subst hnil
      simp at hmod
    | succ n ih =>
      intro l hl hmod
      have hK : FRAME_SAMPLES = 960 := rfl
      by_cases h : l = []
      · subst h; simp at hmod
      · by_cases hrest : l.drop FRAME_SAMPLES = []
        · -- single (short) final frame
          have hle : l.length ≤ FRAME_SAMPLES := by
            have := List.drop_eq_nil_iff.mp hrest
            omega
          have hlt : l.length < FRAME_SAMPLES := by
            rcases Nat.lt_or_ge l.length FRAME_SAMPLES with hlt | hge
            · exact hlt
            · exfalso
              have : l.length = FRAME_SAMPLES := by omega
              rw [this] at hmod
              simp at hmod
          have hmodeq : l.length % FRAME_SAMPLES = l.length :=
            Nat.mod_eq_of_lt hlt
          refine ⟨l ++ List.replicate (FRAME_SAMPLES - l.length) 0, ?_, ?_⟩
          · rw [to_frames_cons l h, hrest, to_frames_nil]
            simp [List.take_of_length_le hle]
          · intro j hj1 hj2
            rw [hmodeq] at hj1
            rw [List.getElem?_append_right hj1]
            rw [List.getElem?_replicate]
            rw [if_pos (by omega)]
        · -- recurse into the remaining frames
          have hlen : (l.drop FRAME_SAMPLES).length = l.length - FRAME_SAMPLES := by
            simp [List.length_drop]
          have hlong : FRAME_SAMPLES < l.length := by
            have := List.drop_eq_nil_iff.not.mp hrest
            omega
          have hmod2 : (l.drop FRAME_SAMPLES).length % FRAME_SAMPLES
              = l.length % FRAME_SAMPLES := by
            rw [hlen, hK] at *
            omega
          obtain ⟨lastF, hget, hpad⟩ := ih (l.drop FRAME_SAMPLES)
            (by rw [hlen, hK]; omega) (by rw [hmod2]; exact hmod)
          refine ⟨lastF, ?_, ?_⟩
          · rw [to_frames_cons l h]
            obtain ⟨y, ys, hys⟩ :=
              List.exists_cons_of_ne_nil (to_frames_ne_nil _ hrest)
            rw [hys] at hget ⊢
            rw [List.getLast?_cons_cons]
            exact hget
          · intro j hj1 hj2
            exact hpad j (by rw [← hmod2] at hj1; exact hj1) hj2
  exact H samples.length samples le_rfl h

/-- C1: for every input sequence of N signed 16-bit samples, `to_frames`
produces exactly ceil(N/960) windows (as a natural number,
`(N + 959) / 960`) of 960 samples each; every window before the last is
the verbatim consecutive 960-sample slice of the input starting at its
window offset; and in the last window every sample at index at least
`N mod 960` (when that is nonzero) equals zero. -/
theorem C1_to_frames_framing (samples : List Int) :
    (to_frames samples).length
        = (samples.length + (FRAME_SAMPLES - 1)) / FRAME_SAMPLES
    ∧ (∀ f ∈ to_frames samples, f.length = FRAME_SAMPLES)
    ∧ (∀ i, i + 1 < (to_frames samples).length →
        (to_frames samples)[i]?
            = some ((samples.drop (i * FRAME_SAMPLES)).take FRAME_SAMPLES)
          ∧ FRAME_SAMPLES ≤ (samples.drop (i * FRAME_SAMPLES)).length)
    ∧ (samples.length % FRAME_SAMPLES ≠ 0 →
        ∃ lastF, (to_frames samples).getLast? = some lastF ∧
          ∀ j, samples.length % FRAME_SAMPLES ≤ j → j < FRAME_SAMPLES →
            lastF[j]? = some (0 : Int)) :=
  ⟨to_frames_length samples, to_frames_frame_length samples,
   to_frames_get_not_last samples, to_frames_last_padding samples⟩

/-- Witness for C1 at a concrete 2450-sample input (three windows, the
last padded from index 2450 mod 960 = 530 on). -/
theorem C1_to_frames_framing_witness :
    (0 : Nat) + 1 < (to_frames (List.replicate 2450 (1 : Int))).length
    ∧ (to_frames (List.replicate 2450 (1 : Int)))[0]?
        = some (((List.replicate 2450 (1 : Int)).drop (0 * FRAME_SAMPLES)).take
            FRAME_SAMPLES)
    ∧ (List.replicate 2450 (1 : Int)).length % FRAME_SAMPLES ≠ 0
    ∧ ∃ lastF,
        (to_frames (List.replicate 2450 (1 : Int))).getLast? = some lastF
        ∧ lastF[600]? = some (0 : Int) := by
  obtain ⟨hlen, hfl, hslice, hlast⟩ :=
    C1_to_frames_framing (List.replicate 2450 (1 : Int))
  have hmod : (List.replicate 2450 (1 : Int)).length % FRAME_SAMPLES ≠ 0 := by
    simp only [List.length_replicate]
    decide
  have hi : (0 : Nat) + 1 < (to_frames (List.replicate 2450 (1 : Int))).length := by
    rw [hlen]
    simp only [List.length_replicate]
    decide
  obtain ⟨lastF, hgl, hpad⟩ := hlast hmod
  exact ⟨hi, (hslice 0 hi).1, hmod, lastF, hgl,
    hpad 600 (by simp only [List.length_replicate]; decide) (by decide)⟩

theorem refresh_eq_self (c : TeamSpeakClient) (hj : c.join.getD false = false) :
    c.refresh_worker_state = c := by
  simp [TeamSpeakClient.refresh_worker_state, hj]

theorem refresh_queue (c : TeamSpeakClient) :
    c.refresh_worker_state.queue = c.queue := by
  unfold TeamSpeakClient.refresh_worker_state
  split <;> rfl

theorem refresh_control_tx_false (c : TeamSpeakClient) (h : c.control_tx = false) :
    c.refresh_worker_state.control_tx = false := by
  unfold TeamSpeakClient.refresh_worker_state
  split <;> simp [h]

theorem refresh_consistent (c : TeamSpeakClient)
    (h : sender_join_consistent c = true) :
    sender_join_consistent c.refresh_worker_state = true := by
  unfold TeamSpeakClient.refresh_worker_state
  split
  · rfl
  · exact h

/-- C10: `push_frame` checks for the command-sender before validating
the buffer length, so an odd-length buffer pushed while no sender
exists yields the not-connected `InvalidArg` error, not the odd-length
one; the length validation is reached only when a sender is present. -/
theorem C10_push_frame_checks_sender_first (c : TeamSpeakClient)
    (pcm_le : List Nat) (htx : c.control_tx = false)
    (hodd : pcm_le.length % 2 = 1) :
    (c.push_frame pcm_le).2 = .error ⟨.InvalidArg, "Not connected"⟩ := by
  unfold TeamSpeakClient.push_frame
  simp [refresh_control_tx_false c htx]

/-- Witness for C10 on a fresh handle and a one-byte buffer. -/
theorem C10_push_frame_checks_sender_first_witness :
    TeamSpeakClient.new.control_tx = false
    ∧ [(7 : Nat)].length % 2 = 1
    ∧ (TeamSpeakClient.new.push_frame [7]).2
        = .error ⟨.InvalidArg, "Not connected"⟩ :=
  ⟨rfl, by decide,
    C10_push_frame_checks_sender_first TeamSpeakClient.new [7] rfl (by decide)⟩

/-- C6: for every byte buffer of odd length, `push_frame` returns an
`InvalidArg` error and enqueues no command: the queue contents are
unchanged. -/
theorem C6_push_frame_odd_rejected (c : TeamSpeakClient) (pcm_le : List Nat)
    (hodd : pcm_le.length % 2 = 1) :
    (∃ msg, (c.push_frame pcm_le).2 = .error ⟨.InvalidArg, msg⟩)
    ∧ (c.push_frame pcm_le).1.queue = c.queue := by
  by_cases htx : c.refresh_worker_state.control_tx = false
  · constructor
    · exact ⟨"Not connected", by simp [TeamSpeakClient.push_frame, htx]⟩
    · simp [TeamSpeakClient.push_frame, htx, refresh_queue]
  · have h2 : pcm_le.length % 2 ≠ 0 := by omega
    constructor
    · exact ⟨"PCM buffer size must be divisible by 2",
        by simp [TeamSpeakClient.push_frame, htx, h2]⟩
    · simp [TeamSpeakClient.push_frame, htx, h2, refresh_queue]

/-- Witness for C6 on a fresh handle and a one-byte buffer. -/
theorem C6_push_frame_odd_rejected_witness :
    [(7 : Nat)].length % 2 = 1
    ∧ (∃ msg, (TeamSpeakClient.new.push_frame [7]).2
        = .error ⟨.InvalidArg, msg⟩)
    ∧ (TeamSpeakClient.new.push_frame [7]).1.queue
        = TeamSpeakClient.new.queue := by
  have h := C6_push_frame_odd_rejected TeamSpeakClient.new [7] (by decide)
  exact ⟨by decide, h.1, h.2⟩

/-- C8: `connect` on a handle already holding an active command-sender
(sender present and the worker task not finished, so the opportunistic
reconciliation of lib.rs lines 240-255 leaves the handle untouched)
fails with the `AlreadyActive` (`InvalidArg`) error and returns the
state completely unchanged: command-sender, task handle, liveness flag
and stored identity string are all as before. -/
theorem C8_connect_already_active (c : TeamSpeakClient)
    (idRes : Except String String) (ready : ReadyOutcome)
    (htx : c.control_tx = true) (hj : c.join.getD false = false) :
    c.connect idRes ready
      = (c, .error ⟨.InvalidArg, "Already connected or connecting"⟩) := by
  unfold TeamSpeakClient.connect
  rw [refresh_eq_self c hj]
  simp [htx]

/-- Witness for C8 on a handle with an active sender and live task. -/
theorem C8_connect_already_active_witness :
    ({ control_tx := true, queue := [], rx_closed := false,
       join := some false, connected := true, identity := some "3Vkey" }
        : TeamSpeakClient).connect (.ok "5Vother") ReadyOutcome.ok
      = ({ control_tx := true, queue := [], rx_closed := false,
           join := some false, connected := true, identity := some "3Vkey" },
         .error ⟨.InvalidArg, "Already connected or connecting"⟩) :=
  C8_connect_already_active _ _ _ rfl rfl

/-- C9: `disconnect` on a handle with no command-sender (and no
finished worker task pending reconciliation) returns success, sends no
command, emits no event, leaves the handle state unchanged, and is
idempotent. -/
theorem C9_disconnect_no_sender_noop (c : TeamSpeakClient)
    (params : Option DisconnectParams) (flow : DisconnectFlow)
    (htx : c.control_tx = false) (hj : c.join.getD false = false) :
    c.disconnect params flow = (c, [], .ok ())
    ∧ ((c.disconnect params flow).1.disconnect params flow
        = (c, [], .ok ())) := by
  have h1 : c.disconnect params flow = (c, [], .ok ()) := by
    unfold TeamSpeakClient.disconnect
    rw [refresh_eq_self c hj]
    simp [htx]
  refine ⟨h1, ?_⟩
  rw [h1]
  exact h1

/-- Witness for C9 on a fresh handle. -/
theorem C9_disconnect_no_sender_noop_witness :
    TeamSpeakClient.new.control_tx = false
    ∧ TeamSpeakClient.new.join.getD false = false
    ∧ TeamSpeakClient.new.disconnect none DisconnectFlow.ackOk
        = (TeamSpeakClient.new, [], .ok ()) :=
  ⟨rfl, rfl,
    (C9_disconnect_no_sender_noop TeamSpeakClient.new none .ackOk rfl rfl).1⟩

/-- C3 counterexample: starting from a fresh handle (where sender and
task handle are both absent), a `connect` whose readiness channel is
dropped without a message returns with the command-sender cleared but
the task handle still present (lib.rs lines 137-144 clear `control_tx`
without taking `join`), violating the both-or-neither invariant at the
point `connect` returns to the caller. -/
theorem C3_sender_join_counterexample :
    sender_join_consistent
        (TeamSpeakClient.new.connect (.ok "3Vkey")
          ReadyOutcome.channelDropped).1
      = false := by decide

/-- C3 amended: at every return of `push_frame` and `disconnect` the
command-sender and task handle are both present or both absent, and
likewise for `connect` except on the path where the readiness channel
is dropped without a message (`WorkerExited`): there the sender is
cleared but the task handle survives until a later operation's
reconciliation; on that path (reached with no prior sender and a parsed
identity) the returned state has no sender and a present task
handle. -/
theorem C3_sender_join_invariant_amended (c : TeamSpeakClient)
    (idRes : Except String String) (ready : ReadyOutcome)
    (params : Option DisconnectParams) (flow : DisconnectFlow)
    (pcm_le : List Nat) (h : sender_join_consistent c = true) :
    sender_join_consistent (c.push_frame pcm_le).1 = true
    ∧ sender_join_consistent (c.disconnect params flow).1 = true
    ∧ (ready ≠ ReadyOutcome.channelDropped →
        sender_join_consistent (c.connect idRes ready).1 = true)
    ∧ (∀ idStr, c.refresh_worker_state.control_tx = false →
        (c.connect (.ok idStr) ReadyOutcome.channelDropped).1.control_tx = false
        ∧ (c.connect (.ok idStr) ReadyOutcome.channelDropped).1.join
            = some false) := by
  have hr := refresh_consistent c h
  have hr' := hr
  simp only [sender_join_consistent, beq_iff_eq] at hr'
  refine ⟨?_, ?_, ?_, ?_⟩
  · by_cases h1 : c.refresh_worker_state.control_tx = false
    · simpa [TeamSpeakClient.push_frame, h1] using hr
    · by_cases h2 : pcm_le.length % 2 ≠ 0
      · simpa [TeamSpeakClient.push_frame, h1, h2] using hr
      · by_cases h3 : c.refresh_worker_state.queue.length < 256
            ∧ c.refresh_worker_state.rx_closed = false
        · simp [TeamSpeakClient.push_frame, h1, h2, h3,
            sender_join_consistent, hr']
          rw [← hr']
          simpa using h1
        · simpa [TeamSpeakClient.push_frame, h1, h2, h3] using hr
  · by_cases h1 : c.refresh_worker_state.control_tx = false
    · simpa [TeamSpeakClient.disconnect, h1] using hr
    · cases flow with
      | sendFailed => simpa [TeamSpeakClient.disconnect, h1] using hr
      | ackDropped =>
          simp [TeamSpeakClient.disconnect, h1, sender_join_consistent, hr']
          rw [← hr']
          simpa using h1
      | ackOk => simp [TeamSpeakClient.disconnect, h1, sender_join_consistent]
      | ackErr e =>
          simp [TeamSpeakClient.disconnect, h1, sender_join_consistent]
  · intro hready
    by_cases h1 : c.refresh_worker_state.control_tx = true
    · simpa [TeamSpeakClient.connect, h1] using hr
    · cases idRes with
      | error e => simpa [TeamSpeakClient.connect, h1] using hr
      | ok idStr =>
        cases ready with
        | ok => simp [TeamSpeakClient.connect, h1, sender_join_consistent]
        | err e => simp [TeamSpeakClient.connect, h1, sender_join_consistent]
        | channelDropped => exact absurd rfl hready
  · intro idStr htx2
    constructor
    · simp [TeamSpeakClient.connect, htx2]
    · simp [TeamSpeakClient.connect, htx2]

/-- Witness for the amended C3 on a fresh handle. -/
theorem C3_sender_join_invariant_amended_witness :
    sender_join_consistent TeamSpeakClient.new = true
    ∧ sender_join_consistent
        (TeamSpeakClient.new.connect (.ok "3Vkey") ReadyOutcome.ok).1 = true
    ∧ (TeamSpeakClient.new.connect (.ok "3Vkey")
        ReadyOutcome.channelDropped).1.join = some false := by
  have h := C3_sender_join_invariant_amended TeamSpeakClient.new
    (.ok "3Vkey") ReadyOutcome.ok none DisconnectFlow.ackOk [] (by decide)
  exact ⟨by decide, h.2.2.1 (by decide), (h.2.2.2 "3Vkey" (by decide)).2⟩

/-- C2 counterexample: the connection-refused exit path (lib.rs lines
293-303) is a failure path that ends the loop, yet it emits only the
`E_CONNECT` error event and no `disconnected` event — the failure is
reported through the readiness channel instead. -/
theorem C2_disconnected_on_failure_counterexample :
    exit_is_failure (ExitPath.connectFailed "connection refused") = true
    ∧ ¬ ∃ ev, ev ∈ exit_events (ExitPath.connectFailed "connection refused")
        ∧ event_name ev = "disconnected" := by
  constructor
  · rfl
  · decide

/-- C2 amended: every failure path that ends the loop after the session
and encoder are established — disconnect rejection, fatal stream error,
stream end-of-input — emits a terminal `disconnected` event before the
loop returns, as does every completed disconnect handshake; but the
connection-refused and encoder-initialization failure paths emit only
their error event (never `disconnected`), and the all-sources-closed
exit emits nothing. -/
theorem C2_disconnected_on_failure_amended (e : String)
    (o : DrainOutcome) (rs : List String) :
    (exit_events (ExitPath.disconnectRejected e)).getLast?
        = some (.disconnectedEv false "disconnect_error")
    ∧ (exit_events (ExitPath.streamFailed e)).getLast?
        = some (.disconnectedEv false "stream_error")
    ∧ (exit_events ExitPath.streamEnded).getLast?
        = some (.disconnectedEv false "eof")
    ∧ (exit_events (ExitPath.disconnectCompleted o rs)).getLast?
        = some (.disconnectedEv false "client_disconnect")
    ∧ (∀ ev ∈ exit_events (ExitPath.connectFailed e),
        event_name ev ≠ "disconnected")
    ∧ (∀ ev ∈ exit_events (ExitPath.encoderInitFailed e),
        event_name ev ≠ "disconnected")
    ∧ exit_events ExitPath.allSourcesClosed = [] := by
  refine ⟨rfl, rfl, rfl, ?_, ?_, ?_, rfl⟩
  · exact List.getLast?_concat _
  · intro ev hev
    simp only [exit_events, List.mem_singleton] at hev
    subst hev
    intro hcon
    have hlit : ("error" : String) = "disconnected" := hcon
    exact absurd hlit (by decide)
  · intro ev hev
    simp only [exit_events, List.mem_singleton] at hev
    subst hev
    intro hcon
    have hlit : ("error" : String) = "disconnected" := hcon
    exact absurd hlit (by decide)

/-- Witness for the amended C2 at concrete messages and outcomes. -/
theorem C2_disconnected_on_failure_amended_witness :
    (exit_events (ExitPath.streamFailed "io error")).getLast?
        = some (.disconnectedEv false "stream_error")
    ∧ NativeEvent.errorEv "E_CONNECT" ("Failed to connect: " ++ "refused")
        ∈ exit_events (ExitPath.connectFailed "refused")
    ∧ event_name
        (NativeEvent.errorEv "E_CONNECT" ("Failed to connect: " ++ "refused"))
        ≠ "disconnected" := by
  have h := C2_disconnected_on_failure_amended "io error" DrainOutcome.completed []
  have h2 := C2_disconnected_on_failure_amended "refused" DrainOutcome.completed []
  exact ⟨h.2.1,
    by simp [exit_events],
    h2.2.2.2.2.1 _ (by simp [exit_events])⟩

theorem push_frame_loop_spec (enc : Nat → List ℚ → EncodeResult)
    (snd : Nat → SendResult) (frames : List (List Int)) :
    ∀ i : Nat,
      (push_frame_loop enc snd frames i).1
          = (frames.enumFrom i).filterMap (fun p => window_event enc snd p.1 p.2)
      ∧ (push_frame_loop enc snd frames i).2
          = (frames.enumFrom i).filterMap (fun p => window_packet enc snd p.1 p.2)
      ∧ (push_frame_loop enc snd frames i).1.length
          + (push_frame_loop enc snd frames i).2.length = frames.length := by
  induction frames with
  | nil => intro i; simp [push_frame_loop]
  | cons f rest ih =>
    intro i
    obtain ⟨h1, h2, h3⟩ := ih (i + 1)
    simp only [push_frame_loop, List.enumFrom_cons, List.filterMap_cons,
      List.length_cons]
    cases henc : enc i (normalize_input f) with
    | encodeFailed e =>
      refine ⟨?_, ?_, ?_⟩
      · simp [window_event, henc, h1]
      · simp [window_packet, henc, h2]
      · simp only [henc, List.length_cons]
        omega
    | encoded d =>
      cases hsnd : snd i with
      | sendFailed e =>
        refine ⟨?_, ?_, ?_⟩
        · simp [window_event, henc, hsnd, h1]
        · simp [window_packet, henc, hsnd, h2]
        · simp only [henc, hsnd, List.length_cons]
          omega
      | sent =>
        refine ⟨?_, ?_, ?_⟩
        · simp [window_event, henc, hsnd, h1]
        · simp [window_packet, henc, hsnd, h2]
        · simp only [henc, hsnd, List.length_cons]
          omega

/-- C7: while processing one PushFrame command, the emitted events are
exactly one error event — `E_AUDIO_ENCODE` on an encode failure,
`E_SEND_AUDIO` on a send failure — per failing window (`window_event`),
the packets handed to the session are exactly one per succeeding window
(`window_packet`), and every window contributes exactly one of the two:
no per-window failure stops the remaining windows from being
processed. -/
theorem C7_push_frame_window_isolation (enc : Nat → List ℚ → EncodeResult)
    (snd : Nat → SendResult) (samples : List Int) :
    (handle_push_frame enc snd samples).1
        = ((to_frames samples).enumFrom 0).filterMap
            (fun p => window_event enc snd p.1 p.2)
    ∧ (handle_push_frame enc snd samples).2
        = ((to_frames samples).enumFrom 0).filterMap
            (fun p => window_packet enc snd p.1 p.2)
    ∧ (handle_push_frame enc snd samples).1.length
        + (handle_push_frame enc snd samples).2.length
        = (to_frames samples).length :=
  push_frame_loop_spec enc snd (to_frames samples) 0

theorem drain_loop_events (speakers : List SpeakerState) :
    ∀ (tr : List Nat) (mx : List ℚ) (ev : List NativeEvent),
      (drain_loop speakers tr mx ev).2.2 = ev ++ speaker_events speakers := by
  induction speakers with
  | nil => intro tr mx ev; simp [drain_loop, speaker_events]
  | cons sp rest ih =>
    intro tr mx ev
    simp only [drain_loop, speaker_events, List.filterMap_cons]
    by_cases h : has_audio (downmix_stereo_to_mono sp.stereo) = true
    · simp [h, ih, speaker_events]
    · simp [h, ih, speaker_events]

theorem drain_loop_to_remove (speakers : List SpeakerState) :
    ∀ (tr : List Nat) (mx : List ℚ) (ev : List NativeEvent),
      (drain_loop speakers tr mx ev).1
        = tr ++ (speakers.filter (fun sp => sp.queuesEmpty)).map SpeakerState.cid := by
  induction speakers with
  | nil => intro tr mx ev; simp [drain_loop]
  | cons sp rest ih =>
    intro tr mx ev
    simp only [drain_loop, List.filter_cons]
    by_cases hq : sp.queuesEmpty = true
    · by_cases h : has_audio (downmix_stereo_to_mono sp.stereo) = true
      · simp [hq, h, ih]
      · simp [hq, h, ih]
    · by_cases h : has_audio (downmix_stereo_to_mono sp.stereo) = true
      · simp [hq, h, ih]
      · simp [hq, h, ih]

theorem remove_fold (ids : List Nat) :
    ∀ sps : List SpeakerState,
      ids.foldl (fun m cid => m.filter (fun sp => sp.cid != cid)) sps
        = sps.filter (fun sp => decide (¬ sp.cid ∈ ids)) := by
  induction ids with
  | nil => intro sps; simp
  | cons j ids ih =>
    intro sps
    simp only [List.foldl_cons]
    rw [ih, List.filter_filter]
    apply List.filter_congr
    intro sp _
    by_cases h1 : sp.cid = j <;> by_cases h2 : sp.cid ∈ ids <;>
      simp [h1, h2]

theorem emit_audio_frames_events (speakers : List SpeakerState) :
    (emit_audio_frames speakers).1
      = speaker_events speakers
        ++ [emit_audio_payload "audioMixed" none
              (drain_loop speakers [] (List.replicate FRAME_SAMPLES 0) []).2.1] := by
  simp only [emit_audio_frames]
  rw [drain_loop_events]
  simp

theorem emit_audio_frames_remaining (speakers : List SpeakerState) :
    (emit_audio_frames speakers).2
      = speakers.filter
          (fun sp => decide (¬ sp.cid ∈ marked_for_removal speakers)) := by
  simp only [emit_audio_frames, marked_for_removal]
  rw [remove_fold]

theorem speaker_events_name (speakers : List SpeakerState) :
    ∀ ev ∈ speaker_events speakers, event_name ev = "audioSpeaker" := by
  intro ev hev
  obtain ⟨sp, hsp, heq⟩ := List.mem_filterMap.mp hev
  by_cases h : has_audio (downmix_stereo_to_mono sp.stereo) = true
  · rw [if_pos h] at heq
    injection heq with h2
    rw [← h2]
    rfl
  · rw [if_neg h] at heq
    simp at heq

/-- C4: on every mixer tick, exactly one `audioMixed` event is emitted,
regardless of the participant set and of whether the composite frame is
all-zero, and its payload carries sampleRate 48000, channels 1,
samples 960 and no clientId field. -/
theorem C4_mixer_unconditional_mixed_event (speakers : List SpeakerState) :
    ((emit_audio_frames speakers).1.filter
        (fun ev => event_name ev == "audioMixed")).length = 1
    ∧ ∀ ev ∈ (emit_audio_frames speakers).1, event_name ev = "audioMixed" →
        (event_payload ev).map AudioPayload.sampleRate = some 48000
        ∧ (event_payload ev).map AudioPayload.channels = some 1
        ∧ (event_payload ev).map AudioPayload.samples = some 960
        ∧ (event_payload ev).map AudioPayload.clientId = some none := by
  rw [emit_audio_frames_events]
  constructor
  · rw [List.filter_append]
    have hnil : (speaker_events speakers).filter
        (fun ev => event_name ev == "audioMixed") = [] := by
      rw [List.filter_eq_nil_iff]
      intro ev hev
      have hn := speaker_events_name speakers ev hev
      simp [hn]
    rw [hnil]
    simp [event_name, emit_audio_payload]
  · intro ev hev hname
    rcases List.mem_append.mp hev with h1 | h2
    · exact absurd hname (by rw [speaker_events_name speakers ev h1]; decide)
    · rw [List.mem_singleton] at h2
      subst h2
      exact ⟨rfl, rfl, rfl, rfl⟩

/-- Witness for C4 at the empty participant set: the tick still emits
exactly one `audioMixed` event, whose payload carries no clientId. -/
theorem C4_mixer_unconditional_mixed_event_witness :
    ((emit_audio_frames []).1.filter
        (fun ev => event_name ev == "audioMixed")).length = 1
    ∧ (event_payload (emit_audio_payload "audioMixed" none
          (List.replicate FRAME_SAMPLES 0))).map AudioPayload.clientId
        = some none := by
  have h := C4_mixer_unconditional_mixed_event []
  refine ⟨h.1, ?_⟩
  have hmem : emit_audio_payload "audioMixed" none
      (List.replicate FRAME_SAMPLES 0) ∈ (emit_audio_frames []).1 := by
    rw [emit_audio_frames_events]
    simp [speaker_events, drain_loop]
  exact (h.2 _ hmem rfl).2.2.2

/-- C5: during one mixer tick a participant is marked for removal if
and only if its decode/jitter queue set is observed empty immediately
after that participant's drain; the removals are applied only to the
post-iteration map (the surviving set is exactly the participants whose
queue set was non-empty), and every participant — including those
marked for removal — still contributes its `audioSpeaker` event for
this tick when audible, showing no mid-tick removal. -/
theorem C5_mixer_removal_discipline (speakers : List SpeakerState)
    (hnd : (speakers.map SpeakerState.cid).Nodup) :
    marked_for_removal speakers
        = (speakers.filter (fun sp => sp.queuesEmpty)).map SpeakerState.cid
    ∧ (∀ sp ∈ speakers,
        (sp.cid ∈ marked_for_removal speakers ↔ sp.queuesEmpty = true))
    ∧ (emit_audio_frames speakers).2
        = speakers.filter (fun sp => !sp.queuesEmpty)
    ∧ ∀ sp ∈ speakers,
        has_audio (downmix_stereo_to_mono sp.stereo) = true →
          emit_audio_payload "audioSpeaker" (some sp.cid)
              (downmix_stereo_to_mono sp.stereo)
            ∈ (emit_audio_frames speakers).1 := by
  have hm : marked_for_removal speakers
      = (speakers.filter (fun sp => sp.queuesEmpty)).map SpeakerState.cid := by
    unfold marked_for_removal
    rw [drain_loop_to_remove]
    simp
  have hmem : ∀ sp ∈ speakers,
      (sp.cid ∈ marked_for_removal speakers ↔ sp.queuesEmpty = true) := by
    intro sp hsp
    rw [hm]
    constructor
    · intro hin
      obtain ⟨sp', hsp', hcid⟩ := List.mem_map.mp hin
      obtain ⟨hsp'mem, hsp'q⟩ := List.mem_filter.mp hsp'
      have heq := List.inj_on_of_nodup_map hnd hsp'mem hsp hcid
      rw [← heq]
      exact hsp'q
    · intro hq
      exact List.mem_map.mpr ⟨sp, List.mem_filter.mpr ⟨hsp, hq⟩, rfl⟩
  refine ⟨hm, hmem, ?_, ?_⟩
  · rw [emit_audio_frames_remaining]
    apply List.filter_congr
    intro sp hsp
    by_cases hq : sp.queuesEmpty = true
    · simp [hq, (hmem sp hsp).mpr hq]
    · have hnin : sp.cid ∉ marked_for_removal speakers :=
        fun hin => hq ((hmem sp hsp).mp hin)
      simp [hq, hnin]
  · intro sp hsp ha
    rw [emit_audio_frames_events]
    apply List.mem_append_left
    apply List.mem_filterMap.mpr
    exact ⟨sp, hsp, by rw [if_pos ha]⟩

/-- Witness for C5: two participants, one observed empty (removed, id
1) and one audible with a buffered frame (kept, id 2, whose
`audioSpeaker` event is emitted this tick). -/
theorem C5_mixer_removal_discipline_witness :
    (([⟨1, ([] : List ℚ), true⟩, ⟨2, [(1 : ℚ)], false⟩]
        : List SpeakerState).map SpeakerState.cid).Nodup
    ∧ marked_for_removal
        [⟨1, ([] : List ℚ), true⟩, ⟨2, [(1 : ℚ)], false⟩] = [1]
    ∧ has_audio (downmix_stereo_to_mono [(1 : ℚ)]) = true
    ∧ emit_audio_payload "audioSpeaker" (some 2)
          (downmix_stereo_to_mono [(1 : ℚ)])
        ∈ (emit_audio_frames
            [⟨1, ([] : List ℚ), true⟩, ⟨2, [(1 : ℚ)], false⟩]).1 := by
  have hnd : (([⟨1, ([] : List ℚ), true⟩, ⟨2, [(1 : ℚ)], false⟩]
      : List SpeakerState).map SpeakerState.cid).Nodup := by decide
  have h := C5_mixer_removal_discipline _ hnd
  have hd : downmix_stereo_to_mono [(1 : ℚ)] = List.replicate FRAME_SAMPLES 1 := by
    simp [downmix_stereo_to_mono]
  have ha : has_audio (downmix_stereo_to_mono [(1 : ℚ)]) = true := by
    rw [hd]
    apply List.any_eq_true.mpr
    refine ⟨1, ?_, ?_⟩
    · exact List.mem_replicate.mpr ⟨by decide, rfl⟩
    · rw [decide_eq_true_eq]
      rw [abs_one]
      norm_num
  refine ⟨hnd, ?_, ha, ?_⟩
  · rw [h.1]
    decide
  · exact h.2.2.2 ⟨2, [(1 : ℚ)], false⟩ (by simp) ha
